import Mathlib

/-!
Shallow embedding of the calcetto-app statistics engine
(src/app/stats.py and the match data model of src/app/data_io.py),
together with proofs of the spec claims about it.

Modelling conventions:
* Python `float` arithmetic is idealised as real arithmetic (`ℝ`);
  `math.pow(10.0, x)` becomes `Real.rpow`.
* A Python calendar `date` is embedded as an order-preserving ordinal
  (`Nat`); the engine only compares dates and uses them as labels.
* A Python `dict` with lazily-defaulted entries (`setdefault`) is
  modelled either as an insertion-ordered association list (when the
  code observes insertion order, e.g. `stats.values()`), or as a total
  function equal to the default off the inserted keys (when only
  lookups are observed, e.g. the ratings dictionary, whose default is
  always `ELO_INITIAL_RATING`).
* Python's `round(x, n)` on floats is idealised as exact decimal
  rounding over `ℝ`.
-/

namespace Calcetto

/-- data_io.MatchPlayerRow: one roster row of a match. -/
structure MatchPlayerRow where
  team : String
  player : String
  goals : Int
  assists : Int
deriving DecidableEq

/-- data_io.Match: one match record.  `date` is the ordinal embedding of
the calendar date. -/
structure MatchRec where
  match_id : String
  date : Nat
  note : String
  players : List MatchPlayerRow
  goals_a_override : Option Int
  goals_b_override : Option Int
deriving DecidableEq

/-- data_io.Match.team_a: rows whose team tag is "A". -/
def MatchRec.team_a (m : MatchRec) : List MatchPlayerRow :=
  m.players.filter (fun r => r.team = "A")

/-- data_io.Match.team_b: rows whose team tag is "B". -/
def MatchRec.team_b (m : MatchRec) : List MatchPlayerRow :=
  m.players.filter (fun r => r.team = "B")

/-- data_io.Match.goals_a: the override when present, else the summed
team-A row goals. -/
def MatchRec.goals_a (m : MatchRec) : Int :=
  match m.goals_a_override with
  | some g => g
  | none => (m.team_a.map (fun r => r.goals)).sum

/-- data_io.Match.goals_b. -/
def MatchRec.goals_b (m : MatchRec) : Int :=
  match m.goals_b_override with
  | some g => g
  | none => (m.team_b.map (fun r => r.goals)).sum

/-- data_io.Match.winner. -/
def MatchRec.winner (m : MatchRec) : String :=
  if m.goals_a > m.goals_b then "A"
  else if m.goals_b > m.goals_a then "B"
  else "Draw"

/-- Key used by stats._sorted_matches: the Python tuple (m.date, m.match_id). -/
def matchKey (m : MatchRec) : Nat × String :=
  (m.date, m.match_id)

/-- Python tuple order on the (date, match_id) sort key. -/
def matchLE (m₁ m₂ : MatchRec) : Prop :=
  m₁.date < m₂.date ∨ (m₁.date = m₂.date ∧ m₁.match_id ≤ m₂.match_id)

instance : DecidableRel matchLE := fun m₁ m₂ =>
  inferInstanceAs (Decidable (m₁.date < m₂.date ∨
    (m₁.date = m₂.date ∧ m₁.match_id ≤ m₂.match_id)))

instance : IsTotal MatchRec matchLE :=
  ⟨fun a b => by
    rcases lt_trichotomy a.date b.date with h | h | h
    · exact Or.inl (Or.inl h)
    · rcases le_total a.match_id b.match_id with h2 | h2
      · exact Or.inl (Or.inr ⟨h, h2⟩)
      · exact Or.inr (Or.inr ⟨h.symm, h2⟩)
    · exact Or.inr (Or.inl h)⟩

instance : IsTrans MatchRec matchLE :=
  ⟨fun a b c h1 h2 => by
    rcases h1 with h1 | ⟨h1, h1i⟩ <;> rcases h2 with h2 | ⟨h2, h2i⟩
    · exact Or.inl (h1.trans h2)
    · exact Or.inl (h2 ▸ h1)
    · exact Or.inl (h1 ▸ h2)
    · exact Or.inr ⟨h1.trans h2, le_trans h1i h2i⟩⟩

/-- stats._sorted_matches: Python's `sorted` is a stable sort by the
(date, match_id) key; it is modelled by the stable `insertionSort`
(any two stable sorts with the same total key order are extensionally
equal). -/
def sorted_matches (log : List MatchRec) : List MatchRec :=
  log.insertionSort matchLE

noncomputable section

/-- stats.ELO_INITIAL_RATING. -/
def ELO_INITIAL_RATING : ℝ := 1000.0

/-- stats.ELO_K_FACTOR. -/
def ELO_K_FACTOR : ℝ := 24.0

/-- stats.ELO_SCALE. -/
def ELO_SCALE : ℝ := 400.0

/-- stats._expected_score. -/
def expected_score (team_rating opp_rating : ℝ) : ℝ :=
  1.0 / (1.0 + (10.0 : ℝ) ^ ((opp_rating - team_rating) / ELO_SCALE))

/-- Team-A roster names of a match, in row order (stats: team_a_names). -/
def teamANames (m : MatchRec) : List String :=
  m.team_a.map (fun r => r.player)

/-- Team-B roster names of a match, in row order (stats: team_b_names). -/
def teamBNames (m : MatchRec) : List String :=
  m.team_b.map (fun r => r.player)

/-- Average rating of a roster: `sum(ratings[name] ...) / len(names)`. -/
def team_rating (ratings : String → ℝ) (names : List String) : ℝ :=
  (names.map ratings).sum / (names.length : ℝ)

/-- The actual score assigned to team A by the replay
(1 on an A win, 0 on a B win, 0.5 on a draw). -/
def actual_a (m : MatchRec) : ℝ :=
  if m.goals_a > m.goals_b then 1.0
  else if m.goals_b > m.goals_a then 0.0
  else 0.5

/-- The actual score assigned to team B by the replay. -/
def actual_b (m : MatchRec) : ℝ :=
  if m.goals_a > m.goals_b then 0.0
  else if m.goals_b > m.goals_a then 1.0
  else 0.5

/-- Per-player delta applied to team A: `K * (actual_a - expected_a)`. -/
def delta_a (ratings : String → ℝ) (m : MatchRec) : ℝ :=
  ELO_K_FACTOR *
    (actual_a m -
      expected_score (team_rating ratings (teamANames m))
        (team_rating ratings (teamBNames m)))

/-- Per-player delta applied to team B: `K * (actual_b - expected_b)`
with `expected_b = 1 - expected_a`. -/
def delta_b (ratings : String → ℝ) (m : MatchRec) : ℝ :=
  ELO_K_FACTOR *
    (actual_b m -
      (1.0 -
        expected_score (team_rating ratings (teamANames m))
          (team_rating ratings (teamBNames m))))

/-- One iteration of the loop body of stats._compute_elo_ratings.  A
match with an empty roster on either side is skipped.  Otherwise every
occurrence of a name in a roster receives that roster's delta (the
Python loops add the delta once per roster occurrence). -/
def eloStep (ratings : String → ℝ) (m : MatchRec) : String → ℝ :=
  if teamANames m = [] ∨ teamBNames m = [] then ratings
  else fun p =>
    ratings p + ((teamANames m).count p : ℝ) * delta_a ratings m
      + ((teamBNames m).count p : ℝ) * delta_b ratings m

/-- stats._compute_elo_ratings.  The ratings dictionary (initialised to
the baseline for every known name, and lazily defaulted to the baseline
for new names) is modelled as a total function that starts constantly at
the baseline; the result is therefore independent of the name list the
Python function receives. -/
def elo_ratings (log : List MatchRec) : String → ℝ :=
  (sorted_matches log).foldl eloStep (fun _ => ELO_INITIAL_RATING)

/-- stats.PlayerStats.  The Python field `matches` is rendered
`matchesPlayed` because `matches` is a Lean keyword. -/
structure PlayerStats where
  name : String
  matchesPlayed : Int
  wins : Int
  draws : Int
  losses : Int
  goals_scored : Int
  assists : Int
  goals_conceded : Int
  elo_rating : ℝ

/-- The dataclass defaults of stats.PlayerStats: all counters 0, rating
at the baseline. -/
def initStats (name : String) : PlayerStats :=
  { name := name, matchesPlayed := 0, wins := 0, draws := 0, losses := 0,
    goals_scored := 0, assists := 0, goals_conceded := 0,
    elo_rating := ELO_INITIAL_RATING }

/-- stats.PlayerStats.win_rate. -/
def PlayerStats.win_rate (s : PlayerStats) : ℝ :=
  if s.matchesPlayed = 0 then 0.0 else (s.wins : ℝ) / (s.matchesPlayed : ℝ)

/-- stats.PlayerStats.goals_per_match. -/
def PlayerStats.goals_per_match (s : PlayerStats) : ℝ :=
  if s.matchesPlayed = 0 then 0.0
  else (s.goals_scored : ℝ) / (s.matchesPlayed : ℝ)

/-- The `stats` dictionary of stats.compute_player_stats, modelled as an
insertion-ordered association list (CPython dictionaries preserve
insertion order, which build_dashboard observes through `.values()`). -/
abbrev StatsMap : Type := List (String × PlayerStats)

/-- Python `name in stats` on the dictionary. -/
def hasKey (l : StatsMap) (k : String) : Bool :=
  (List.any l (fun e => e.1 = k) : Bool)

/-- Dictionary lookup with the dataclass default:
`stats.setdefault(k, PlayerStats(name=k))` as observed by a reader. -/
def statsOf : StatsMap → String → PlayerStats
  | [], k => initStats k
  | e :: t, k => if e.1 = k then e.2 else statsOf t k

/-- Python `stats.setdefault(k, PlayerStats(name=k))`: append a fresh default
entry when the key is absent. -/
def getOrInsert (l : StatsMap) (k : String) : StatsMap :=
  if hasKey l k then l else l ++ [(k, initStats k)]

/-- In-place mutation of the entry stored under a key. -/
def modifyStats (l : StatsMap) (k : String) (f : PlayerStats → PlayerStats) :
    StatsMap :=
  l.map (fun e => if e.1 = k then (e.1, f e.2) else e)

/-- Python `p = stats.setdefault(row.player, ...)` followed by mutating `p`. -/
def bump (l : StatsMap) (k : String) (f : PlayerStats → PlayerStats) :
    StatsMap :=
  modifyStats (getOrInsert l k) k f

/-- Team result labels of stats.compute_player_stats ("win"/"loss"/"draw"),
for team A. -/
def result_a (m : MatchRec) : String :=
  if m.goals_a > m.goals_b then "win"
  else if m.goals_b > m.goals_a then "loss"
  else "draw"

/-- Team result label for team B. -/
def result_b (m : MatchRec) : String :=
  if m.goals_a > m.goals_b then "loss"
  else if m.goals_b > m.goals_a then "win"
  else "draw"

/-- The per-row counter update of stats.compute_player_stats:
`conceded` is the opposing team's score and `result` this team's label. -/
def applyRow (l : StatsMap) (row : MatchPlayerRow) (conceded : Int)
    (result : String) : StatsMap :=
  bump l row.player (fun p =>
    { p with
      matchesPlayed := p.matchesPlayed + 1
      goals_scored := p.goals_scored + row.goals
      assists := p.assists + row.assists
      goals_conceded := p.goals_conceded + conceded
      wins := p.wins + (if result = "win" then 1 else 0)
      losses := p.losses + (if result = "loss" then 1 else 0)
      draws := p.draws +
        (if result = "win" then 0 else if result = "loss" then 0 else 1) })

/-- The body of the `for match in matches` loop of
stats.compute_player_stats: team-A rows then team-B rows. -/
def statsStep (l : StatsMap) (m : MatchRec) : StatsMap :=
  let l₁ := m.team_a.foldl
    (fun acc row => applyRow acc row m.goals_b (result_a m)) l
  m.team_b.foldl (fun acc row => applyRow acc row m.goals_a (result_b m)) l₁

/-- stats.compute_player_stats: seed the dictionary from the known-name
list, fold the aggregate counters over the match log, then write each
player's final Elo rating into their entry. -/
def compute_player_stats (log : List MatchRec) (player_names : List String) :
    StatsMap :=
  let init : StatsMap :=
    player_names.foldl (fun acc n => getOrInsert acc n) []
  let counted := log.foldl statsStep init
  let ratings := elo_ratings log
  counted.map (fun e => (e.1, { e.2 with elo_rating := ratings e.1 }))

/-- Python `round(x, 2)` idealised over ℝ. -/
def round2 (x : ℝ) : ℝ := ((round (x * 100) : ℤ) : ℝ) / 100

/-- Python `round(x, 3)` idealised over ℝ. -/
def round3 (x : ℝ) : ℝ := ((round (x * 1000) : ℤ) : ℝ) / 1000

/-- Python `sorted(all_stats, key=..., reverse=True)` sorts descending by a
lexicographic key triple; element `a` may stably precede `b` exactly
when `a`'s key triple is lexicographically ≥ `b`'s.  This is the
generic form of that comparison for a key triple `(k₁, k₂, k₃)`. -/
def descBy3 {α β γ : Type} [LinearOrder α] [LinearOrder β] [LinearOrder γ]
    (k₁ : PlayerStats → α) (k₂ : PlayerStats → β) (k₃ : PlayerStats → γ)
    (a b : PlayerStats) : Prop :=
  k₁ b < k₁ a ∨
    (k₁ a = k₁ b ∧ (k₂ b < k₂ a ∨ (k₂ a = k₂ b ∧ k₃ b ≤ k₃ a)))

instance {α β γ : Type} [LinearOrder α] [LinearOrder β] [LinearOrder γ]
    (k₁ : PlayerStats → α) (k₂ : PlayerStats → β) (k₃ : PlayerStats → γ) :
    DecidableRel (descBy3 k₁ k₂ k₃) := fun a b =>
  inferInstanceAs (Decidable (k₁ b < k₁ a ∨
    (k₁ a = k₁ b ∧ (k₂ b < k₂ a ∨ (k₂ a = k₂ b ∧ k₃ b ≤ k₃ a)))))

instance {α β γ : Type} [LinearOrder α] [LinearOrder β] [LinearOrder γ]
    (k₁ : PlayerStats → α) (k₂ : PlayerStats → β) (k₃ : PlayerStats → γ) :
    IsTotal PlayerStats (descBy3 k₁ k₂ k₃) :=
  ⟨fun a b => by
    rcases lt_trichotomy (k₁ a) (k₁ b) with h | h | h
    · exact Or.inr (Or.inl h)
    · rcases lt_trichotomy (k₂ a) (k₂ b) with h2 | h2 | h2
      · exact Or.inr (Or.inr ⟨h.symm, Or.inl h2⟩)
      · rcases le_total (k₃ a) (k₃ b) with h3 | h3
        · exact Or.inr (Or.inr ⟨h.symm, Or.inr ⟨h2.symm, h3⟩⟩)
        · exact Or.inl (Or.inr ⟨h, Or.inr ⟨h2, h3⟩⟩)
      · exact Or.inl (Or.inr ⟨h, Or.inl h2⟩)
    · exact Or.inl (Or.inl h)⟩

instance {α β γ : Type} [LinearOrder α] [LinearOrder β] [LinearOrder γ]
    (k₁ : PlayerStats → α) (k₂ : PlayerStats → β) (k₃ : PlayerStats → γ) :
    IsTrans PlayerStats (descBy3 k₁ k₂ k₃) :=
  ⟨fun a b c h1 h2 => by
    rcases h1 with h1 | ⟨he1, r1⟩
    · rcases h2 with h2 | ⟨he2, r2⟩
      · exact Or.inl (h2.trans h1)
      · exact Or.inl (he2 ▸ h1)
    · rcases h2 with h2 | ⟨he2, r2⟩
      · exact Or.inl (he1 ▸ h2)
      · refine Or.inr ⟨he1.trans he2, ?_⟩
        rcases r1 with r1 | ⟨he12, r13⟩
        · rcases r2 with r2 | ⟨he22, r23⟩
          · exact Or.inl (r2.trans r1)
          · exact Or.inl (he22 ▸ r1)
        · rcases r2 with r2 | ⟨he22, r23⟩
          · exact Or.inl (he12 ▸ r2)
          · exact Or.inr ⟨he12.trans he22, le_trans r23 r13⟩⟩

/-- The tertiary sort key `s.name.lower()`: Python compares the
lowercased name lexicographically; a Lean `String` compares exactly as
its character list, so the key is embedded order-faithfully as the
lowercased character list. -/
def lowerKey (s : String) : List Char :=
  s.data.map Char.toLower

/-- Comparator of the scorers ranking: Python key
`(s.goals_scored, -s.matches, s.name.lower())`, descending. -/
def scorer_le : PlayerStats → PlayerStats → Prop :=
  descBy3 (fun s => s.goals_scored) (fun s => -s.matchesPlayed)
    (fun s => lowerKey s.name)

/-- Comparator of the assists ranking: key `(assists, -matches, lower name)`,
descending. -/
def assist_le : PlayerStats → PlayerStats → Prop :=
  descBy3 (fun s => s.assists) (fun s => -s.matchesPlayed)
    (fun s => lowerKey s.name)

/-- Comparator of the goals-per-match ranking: key
`(goals_per_match, matches, lower name)`, descending. -/
noncomputable def gpm_le : PlayerStats → PlayerStats → Prop :=
  descBy3 (fun s => s.goals_per_match) (fun s => s.matchesPlayed)
    (fun s => lowerKey s.name)

/-- Comparator of the win-rate ranking: key `(win_rate, matches, lower name)`,
descending. -/
noncomputable def winrate_le : PlayerStats → PlayerStats → Prop :=
  descBy3 (fun s => s.win_rate) (fun s => s.matchesPlayed)
    (fun s => lowerKey s.name)

/-- Comparator of the rating ranking: key `(elo_rating, matches, lower name)`,
descending. -/
noncomputable def elorank_le : PlayerStats → PlayerStats → Prop :=
  descBy3 (fun s => s.elo_rating) (fun s => s.matchesPlayed)
    (fun s => lowerKey s.name)

noncomputable instance : DecidableRel gpm_le := fun a b =>
  inferInstanceAs (Decidable (descBy3 _ _ _ a b))

noncomputable instance : DecidableRel winrate_le := fun a b =>
  inferInstanceAs (Decidable (descBy3 _ _ _ a b))

noncomputable instance : DecidableRel elorank_le := fun a b =>
  inferInstanceAs (Decidable (descBy3 _ _ _ a b))

instance : DecidableRel scorer_le := fun a b =>
  inferInstanceAs (Decidable (descBy3 _ _ _ a b))

instance : DecidableRel assist_le := fun a b =>
  inferInstanceAs (Decidable (descBy3 _ _ _ a b))

/-- stats.DashboardData, restricted to the ranking lists
(match_to_view / latest_matches are display plumbing; the ten most
recent matches are kept as raw records). -/
structure DashboardData where
  top_scorers : List PlayerStats
  top_assists : List PlayerStats
  goals_per_match_ranking : List PlayerStats
  win_rate_ranking : List PlayerStats
  elo_ranking : List PlayerStats
  latest_matches : List MatchRec

/-- stats.build_dashboard. -/
def build_dashboard (log : List MatchRec) (player_names : List String) :
    DashboardData :=
  let all_stats := (compute_player_stats log player_names).map (fun e => e.2)
  let with_match := all_stats.filter (fun s => decide (1 ≤ s.matchesPlayed))
  { top_scorers := (all_stats.insertionSort scorer_le).take 10
    top_assists := (all_stats.insertionSort assist_le).take 10
    goals_per_match_ranking := (with_match.insertionSort gpm_le).take 10
    win_rate_ranking := (with_match.insertionSort winrate_le).take 10
    elo_ranking := (all_stats.insertionSort elorank_le).take 10
    latest_matches := log.take 10 }

/-- stats.TimelinePoint (the date keeps its ordinal embedding). -/
structure TimelinePoint where
  date : Nat
  elo : ℝ

/-- Loop body of stats.player_elo_timeline: skip empty-team matches,
update the running ratings exactly as the rating replay does, and
append a snapshot when the subject played. -/
def timelineStep (player_name : String)
    (st : (String → ℝ) × List TimelinePoint) (m : MatchRec) :
    (String → ℝ) × List TimelinePoint :=
  if teamANames m = [] ∨ teamBNames m = [] then st
  else
    let running := eloStep st.1 m
    if player_name ∈ teamANames m ∨ player_name ∈ teamBNames m then
      (running, st.2 ++ [⟨m.date, round2 (running player_name)⟩])
    else (running, st.2)

/-- stats.player_elo_timeline. -/
def player_elo_timeline (log : List MatchRec) (player_name : String) :
    List TimelinePoint :=
  ((sorted_matches log).foldl (timelineStep player_name)
    (fun _ => ELO_INITIAL_RATING, [])).2

/-- The `_team_of` helper of stats.primary_on_off_stats /
combined_together_stats: "A" if the player has a team-A row, else "B"
if a team-B row, else absent. -/
def team_of (m : MatchRec) (player_name : String) : Option String :=
  if m.team_a.any (fun r => r.player = player_name) then some "A"
  else if m.team_b.any (fun r => r.player = player_name) then some "B"
  else none

/-- One accumulator bucket of stats.primary_on_off_stats. -/
structure Bucket where
  matchesPlayed : Int
  wins : Int
  draws : Int
  losses : Int
  win_rate : ℝ
  goals_for : Int
  goals_against : Int
  primary_goals : Int
  primary_assists : Int

/-- stats.primary_on_off_stats._empty_bucket. -/
def emptyBucket : Bucket :=
  { matchesPlayed := 0, wins := 0, draws := 0, losses := 0, win_rate := 0.0,
    goals_for := 0, goals_against := 0, primary_goals := 0,
    primary_assists := 0 }

/-- All rows of the primary player in a match (`row.player == primary`). -/
def primaryRows (m : MatchRec) (primary : String) : List MatchPlayerRow :=
  m.players.filter (fun r => r.player = primary)

/-- The per-match bucket update of stats.primary_on_off_stats, given the
primary's team tag for this match. -/
def bucketAdd (b : Bucket) (m : MatchRec) (primary : String) (pt : String) :
    Bucket :=
  let goals_for := if pt = "A" then m.goals_a else m.goals_b
  let goals_against := if pt = "A" then m.goals_b else m.goals_a
  { b with
    matchesPlayed := b.matchesPlayed + 1
    goals_for := b.goals_for + goals_for
    goals_against := b.goals_against + goals_against
    wins := b.wins + (if goals_for > goals_against then 1 else 0)
    losses := b.losses + (if goals_for < goals_against then 1 else 0)
    draws := b.draws +
      (if goals_for > goals_against then 0
       else if goals_for < goals_against then 0 else 1)
    primary_goals := b.primary_goals +
      ((primaryRows m primary).map (fun r => r.goals)).sum
    primary_assists := b.primary_assists +
      ((primaryRows m primary).map (fun r => r.assists)).sum }

/-- Loop body of stats.primary_on_off_stats: skip matches without the
primary; otherwise add the match to the "with group" bucket when every
partner shares the primary's team, else to the "without group" bucket. -/
def onOffStep (primary : String) (partners : List String)
    (st : Bucket × Bucket) (m : MatchRec) : Bucket × Bucket :=
  match team_of m primary with
  | none => st
  | some pt =>
    if partners.all (fun q => team_of m q = some pt) then
      (bucketAdd st.1 m primary pt, st.2)
    else
      (st.1, bucketAdd st.2 m primary pt)

/-- The final win-rate pass of stats.primary_on_off_stats. -/
def finalizeBucket (b : Bucket) : Bucket :=
  { b with
    win_rate :=
      if b.matchesPlayed = 0 then 0.0
      else round2 ((b.wins : ℝ) / (b.matchesPlayed : ℝ) * 100.0) }

/-- stats.primary_on_off_stats, returning (with_group, without_group). -/
def primary_on_off_stats (log : List MatchRec) (primary : String)
    (partners : List String) : Bucket × Bucket :=
  let st := log.foldl (onOffStep primary partners) (emptyBucket, emptyBucket)
  (finalizeBucket st.1, finalizeBucket st.2)

/-- All row names of a match (`{r.player for r in match.players}` used as
a membership test). -/
def rowNames (m : MatchRec) : List String :=
  m.players.map (fun r => r.player)

/-- The per-subject counter record of
stats.multi_player_cumulative_series. -/
structure CounterRec where
  wins : Int
  draws : Int
  losses : Int
  goals_scored : Int
  assists : Int
  goals_conceded : Int

/-- The zero counters every subject starts from. -/
def zeroCounters : CounterRec :=
  { wins := 0, draws := 0, losses := 0, goals_scored := 0, assists := 0,
    goals_conceded := 0 }

/-- Python `sum(r.goals for r in match.players if r.player == p)`. -/
def playerGoals (m : MatchRec) (p : String) : Int :=
  ((m.players.filter (fun r => r.player = p)).map (fun r => r.goals)).sum

/-- Python `sum(r.assists for r in match.players if r.player == p)`. -/
def playerAssists (m : MatchRec) (p : String) : Int :=
  ((m.players.filter (fun r => r.player = p)).map (fun r => r.assists)).sum

/-- The per-match counter update for one subject who played the match. -/
def counterAdd (m : MatchRec) (p : String) (c : CounterRec) : CounterRec :=
  let onA := p ∈ teamANames m
  { wins := c.wins +
      (if m.goals_a = m.goals_b then 0
       else if (onA ∧ m.goals_a > m.goals_b) ∨ (¬onA ∧ m.goals_b > m.goals_a)
       then 1 else 0)
    draws := c.draws + (if m.goals_a = m.goals_b then 1 else 0)
    losses := c.losses +
      (if m.goals_a = m.goals_b then 0
       else if (onA ∧ m.goals_a > m.goals_b) ∨ (¬onA ∧ m.goals_b > m.goals_a)
       then 0 else 1)
    goals_scored := c.goals_scored + playerGoals m p
    assists := c.assists + playerAssists m p
    goals_conceded := c.goals_conceded +
      (if onA then m.goals_b else m.goals_a) }

/-- One per-metric snapshot row of
stats.multi_player_cumulative_series, keyed by metric name in the code;
modelled as a record whose named per-metric value lists are its
projections. -/
structure SeriesSnapshot where
  elo : ℝ
  wins : Int
  draws : Int
  losses : Int
  goals_scored : Int
  goals_per_match : ℝ
  assists : Int
  goals_conceded : Int
  win_rate : ℝ

/-- The snapshot stored for a subject who played the row's match. -/
def snapshotOf (elo : ℝ) (c : CounterRec) : SeriesSnapshot :=
  let played := c.wins + c.draws + c.losses
  { elo := round2 elo
    wins := c.wins
    draws := c.draws
    losses := c.losses
    goals_scored := c.goals_scored
    goals_per_match :=
      if played = 0 then 0.0
      else round3 ((c.goals_scored : ℝ) / (played : ℝ))
    assists := c.assists
    goals_conceded := c.goals_conceded
    win_rate :=
      if played = 0 then round2 0.0
      else round2 ((c.wins : ℝ) / (played : ℝ) * 100.0) }

/-- The replay state of stats.multi_player_cumulative_series.  The
per-player series lists hold one entry per emitted row: `some` a
snapshot when the subject played that row's match, `none` (the Python
`None` "no data" marker) otherwise. -/
structure MultiState where
  ratings : String → ℝ
  counters : String → CounterRec
  labels : List Nat
  series : String → List (Option SeriesSnapshot)

/-- The initial state of the multi-player replay. -/
def multiInit : MultiState :=
  { ratings := fun _ => ELO_INITIAL_RATING
    counters := fun _ => zeroCounters
    labels := []
    series := fun _ => [] }

/-- Loop body of stats.multi_player_cumulative_series.  Rating updates
always happen (for globally consistent ratings); a row is emitted only
when some subject played the match; counters and dictionaries keyed by
the selected-name set are modelled pointwise, which matches the Python
set/dict iteration for a duplicate-free subject list. -/
def multiStep (player_names : List String) (st : MultiState) (m : MatchRec) :
    MultiState :=
  if teamANames m = [] ∨ teamBNames m = [] then st
  else
    let ratings' := eloStep st.ratings m
    if ∀ p ∈ player_names, p ∉ rowNames m then { st with ratings := ratings' }
    else
      let counters' := fun q =>
        if q ∈ player_names ∧ q ∈ rowNames m then counterAdd m q (st.counters q)
        else st.counters q
      { ratings := ratings'
        counters := counters'
        labels := st.labels ++ [m.date]
        series := fun q =>
          if q ∈ player_names then
            st.series q ++
              [if q ∈ rowNames m then some (snapshotOf (ratings' q) (counters' q))
               else none]
          else st.series q }

/-- stats.multi_player_cumulative_series (labels together with the
per-player series). -/
def multi_player_cumulative_series (log : List MatchRec)
    (player_names : List String) : MultiState :=
  (sorted_matches log).foldl (multiStep player_names) multiInit

/-- One metric's `values_by_player` list for one subject: the metric
projection mapped over that subject's emitted rows, keeping the
"no data" marker. -/
def metricValues (metric : SeriesSnapshot → ℝ) (st : MultiState)
    (p : String) : List (Option ℝ) :=
  (st.series p).map (fun o => o.map metric)

end

/-! Per-match, per-player closed forms of the aggregate-counter updates
of stats.compute_player_stats: how much one match adds to each counter
of one player.  These are derived bookkeeping for the proofs (the loop
itself is `statsStep`). -/

/-- How many rows of a row list belong to a player. -/
def rowCount (rows : List MatchPlayerRow) (p : String) : Int :=
  ((rows.filter (fun r => r.player = p)).length : Int)

/-- Summed goals of a player's rows in a row list. -/
def rowGoals (rows : List MatchPlayerRow) (p : String) : Int :=
  ((rows.filter (fun r => r.player = p)).map (fun r => r.goals)).sum

/-- Summed assists of a player's rows in a row list. -/
def rowAssists (rows : List MatchPlayerRow) (p : String) : Int :=
  ((rows.filter (fun r => r.player = p)).map (fun r => r.assists)).sum

/-- One match's contribution to a player's `matches` counter. -/
def matchesContr (m : MatchRec) (p : String) : Int :=
  rowCount m.team_a p + rowCount m.team_b p

/-- One match's contribution to a player's `goals_scored` counter: the
player's own recorded row goals. -/
def goalsContr (m : MatchRec) (p : String) : Int :=
  rowGoals m.team_a p + rowGoals m.team_b p

/-- One match's contribution to a player's `assists` counter. -/
def assistsContr (m : MatchRec) (p : String) : Int :=
  rowAssists m.team_a p + rowAssists m.team_b p

/-- One match's contribution to a player's `goals_conceded` counter:
the opposing team's score per row. -/
def concededContr (m : MatchRec) (p : String) : Int :=
  rowCount m.team_a p * m.goals_b + rowCount m.team_b p * m.goals_a

/-- One match's contribution to a player's `wins` counter. -/
def winsContr (m : MatchRec) (p : String) : Int :=
  (if result_a m = "win" then rowCount m.team_a p else 0) +
    (if result_b m = "win" then rowCount m.team_b p else 0)

/-- One match's contribution to a player's `losses` counter. -/
def lossesContr (m : MatchRec) (p : String) : Int :=
  (if result_a m = "loss" then rowCount m.team_a p else 0) +
    (if result_b m = "loss" then rowCount m.team_b p else 0)

/-- One match's contribution to a player's `draws` counter. -/
def drawsContr (m : MatchRec) (p : String) : Int :=
  (if result_a m = "win" then 0
   else if result_a m = "loss" then 0 else rowCount m.team_a p) +
    (if result_b m = "win" then 0
     else if result_b m = "loss" then 0 else rowCount m.team_b p)

/-! Concrete match data used by the example claim and by witnesses and
counterexamples. -/

/-- Example row: P1 on team A with 2 goals. -/
def rowP1 : MatchPlayerRow :=
  { team := "A", player := "P1", goals := 2, assists := 0 }

/-- Example row: P2 on team B with 1 goal. -/
def rowP2 : MatchPlayerRow :=
  { team := "B", player := "P2", goals := 1, assists := 0 }

/-- The single example match of spec §8.6: P1 (A, 2 goals) vs P2 (B, 1
goal), date 2024-01-01 (ordinal 20240101), id "m1". -/
def mExample : MatchRec :=
  { match_id := "m1", date := 20240101, note := "",
    players := [rowP1, rowP2], goals_a_override := none,
    goals_b_override := none }

/-- An earlier second match (P2 beats P1), date 2024-01-02, id "m2":
with "m1" it forms a two-match log with strictly increasing keys. -/
def mExample2 : MatchRec :=
  { match_id := "m2", date := 20240102, note := "",
    players := [{ team := "A", player := "P1", goals := 0, assists := 0 },
                { team := "B", player := "P2", goals := 3, assists := 0 }],
    goals_a_override := none, goals_b_override := none }

/-- A match whose top-scorer keys tie two players ("alba" and "bruno",
both 1 goal in their single match) against a third ("carlo"). -/
def mTie : MatchRec :=
  { match_id := "t1", date := 20240105, note := "",
    players := [{ team := "A", player := "alba", goals := 1, assists := 0 },
                { team := "A", player := "bruno", goals := 1, assists := 0 },
                { team := "B", player := "carlo", goals := 0, assists := 0 }],
    goals_a_override := none, goals_b_override := none }

/-- A match with an explicit score override (3:0) diverging from the
summed row goals (1 for A, 5 for B). -/
def mOverride : MatchRec :=
  { match_id := "o1", date := 20240110, note := "",
    players := [{ team := "A", player := "P1", goals := 1, assists := 2 },
                { team := "B", player := "P2", goals := 5, assists := 0 }],
    goals_a_override := some 3, goals_b_override := some 0 }

/-- A degenerate match whose rows are all on team B (team A is empty). -/
def mEmptyA : MatchRec :=
  { match_id := "e1", date := 20240103, note := "",
    players := [{ team := "B", player := "P9", goals := 4, assists := 1 }],
    goals_a_override := none, goals_b_override := none }

attribute [ext] PlayerStats

section ClaimTheorems

/-! Dictionary lemmas: how `statsOf` interacts with the modelled
`setdefault`-and-mutate operations. -/

theorem modifyStats_nil (k : String) (f : PlayerStats → PlayerStats) :
    modifyStats [] k f = [] := rfl

theorem modifyStats_cons (e : String × PlayerStats) (t : StatsMap)
    (k : String) (f : PlayerStats → PlayerStats) :
    modifyStats (e :: t) k f =
      (if e.1 = k then (e.1, f e.2) else e) :: modifyStats t k f := by
  simp [modifyStats]

theorem statsOf_cons (e : String × PlayerStats) (t : StatsMap) (p : String) :
    statsOf (e :: t) p = if e.1 = p then e.2 else statsOf t p := rfl

theorem hasKey_cons (e : String × PlayerStats) (t : StatsMap) (k : String) :
    hasKey (e :: t) k = (decide (e.1 = k) || hasKey t k) := by
  simp [hasKey]

theorem statsOf_modify_ne (l : StatsMap) (k p : String)
    (f : PlayerStats → PlayerStats) (h : p ≠ k) :
    statsOf (modifyStats l k f) p = statsOf l p := by
  have hkp : ¬ k = p := fun hh => h hh.symm
  induction l with
  | nil => rfl
  | cons e t ih =>
    rw [modifyStats_cons]
    by_cases he : e.1 = k
    · rw [statsOf_cons, statsOf_cons, if_pos he]
      simp only [he, if_neg hkp]
      exact ih
    · rw [if_neg he, statsOf_cons, statsOf_cons]
      by_cases hep : e.1 = p
      · rw [if_pos hep, if_pos hep]
      · rw [if_neg hep, if_neg hep]
        exact ih

theorem statsOf_modify_self (l : StatsMap) (k : String)
    (f : PlayerStats → PlayerStats) (h : hasKey l k = true) :
    statsOf (modifyStats l k f) k = f (statsOf l k) := by
  induction l with
  | nil => simp [hasKey] at h
  | cons e t ih =>
    rw [modifyStats_cons]
    by_cases he : e.1 = k
    · rw [if_pos he, statsOf_cons, statsOf_cons, if_pos he, if_pos he]
    · rw [hasKey_cons] at h
      have ht : hasKey t k = true := by
        simpa [he] using h
      rw [if_neg he, statsOf_cons, statsOf_cons, if_neg he, if_neg he]
      exact ih ht

theorem statsOf_not_hasKey (l : StatsMap) (k : String)
    (h : hasKey l k = false) : statsOf l k = initStats k := by
  induction l with
  | nil => rfl
  | cons e t ih =>
    rw [hasKey_cons] at h
    have he : ¬ e.1 = k := by
      intro hh
      simp [hh] at h
    have ht : hasKey t k = false := by
      simpa [he] using h
    rw [statsOf_cons, if_neg he]
    exact ih ht

theorem statsOf_append_ne (l : StatsMap) (k p : String) (h : p ≠ k) :
    statsOf (l ++ [(k, initStats k)]) p = statsOf l p := by
  have hkp : ¬ k = p := fun hh => h hh.symm
  induction l with
  | nil =>
    rw [List.nil_append, statsOf_cons, if_neg hkp]
  | cons e t ih =>
    rw [List.cons_append, statsOf_cons, statsOf_cons]
    by_cases he : e.1 = p
    · rw [if_pos he, if_pos he]
    · rw [if_neg he, if_neg he]
      exact ih

theorem statsOf_append_self (l : StatsMap) (k : String)
    (h : hasKey l k = false) :
    statsOf (l ++ [(k, initStats k)]) k = initStats k := by
  induction l with
  | nil => simp [statsOf_cons]
  | cons e t ih =>
    rw [hasKey_cons] at h
    have he : ¬ e.1 = k := by
      intro hh
      simp [hh] at h
    have ht : hasKey t k = false := by
      simpa [he] using h
    rw [List.cons_append, statsOf_cons, if_neg he]
    exact ih ht

theorem hasKey_getOrInsert (l : StatsMap) (k : String) :
    hasKey (getOrInsert l k) k = true := by
  by_cases h : hasKey l k = true
  · simp [getOrInsert, h]
  · have hf : hasKey l k = false := by simpa using h
    simp only [getOrInsert, hf, Bool.false_eq_true, if_false]
    induction l with
    | nil => simp [hasKey]
    | cons e t ih =>
      rw [hasKey_cons] at hf
      have ht : hasKey t k = false := by
        rcases Bool.or_eq_false_iff.mp hf with ⟨_, h2⟩
        exact h2
      rw [List.cons_append, hasKey_cons, ih (by simp [ht]) ht,
        Bool.or_true]

theorem statsOf_getOrInsert (l : StatsMap) (k p : String) :
    statsOf (getOrInsert l k) p = statsOf l p := by
  by_cases h : hasKey l k = true
  · simp [getOrInsert, h]
  · have hf : hasKey l k = false := by simpa using h
    simp only [getOrInsert, hf, Bool.false_eq_true, if_false]
    by_cases hp : p = k
    · subst hp
      rw [statsOf_append_self l p hf, statsOf_not_hasKey l p hf]
    · exact statsOf_append_ne l k p hp

theorem statsOf_bump (l : StatsMap) (k p : String)
    (f : PlayerStats → PlayerStats) :
    statsOf (bump l k f) p =
      if p = k then f (statsOf l k) else statsOf l p := by
  by_cases hp : p = k
  · subst hp
    rw [if_pos rfl, bump,
      statsOf_modify_self _ _ _ (hasKey_getOrInsert l p),
      statsOf_getOrInsert]
  · rw [if_neg hp, bump, statsOf_modify_ne _ _ _ _ hp, statsOf_getOrInsert]

/-! Closed forms of the counter contributions of one row list, one
match, and a whole log. -/

theorem rowCount_cons (r : MatchPlayerRow) (t : List MatchPlayerRow)
    (p : String) :
    rowCount (r :: t) p = (if r.player = p then 1 else 0) + rowCount t p := by
  by_cases h : r.player = p <;> simp [rowCount, List.filter_cons, h] <;> omega

theorem rowGoals_cons (r : MatchPlayerRow) (t : List MatchPlayerRow)
    (p : String) :
    rowGoals (r :: t) p = (if r.player = p then r.goals else 0)
      + rowGoals t p := by
  by_cases h : r.player = p <;> simp [rowGoals, List.filter_cons, h]

theorem rowAssists_cons (r : MatchPlayerRow) (t : List MatchPlayerRow)
    (p : String) :
    rowAssists (r :: t) p = (if r.player = p then r.assists else 0)
      + rowAssists t p := by
  by_cases h : r.player = p <;> simp [rowAssists, List.filter_cons, h]

theorem statsOf_foldRows (rows : List MatchPlayerRow) (conceded : Int)
    (result : String) (l : StatsMap) (p : String) :
    statsOf (rows.foldl (fun acc row => applyRow acc row conceded result) l)
        p =
      { statsOf l p with
        matchesPlayed := (statsOf l p).matchesPlayed + rowCount rows p
        goals_scored := (statsOf l p).goals_scored + rowGoals rows p
        assists := (statsOf l p).assists + rowAssists rows p
        goals_conceded := (statsOf l p).goals_conceded
          + rowCount rows p * conceded
        wins := (statsOf l p).wins
          + (if result = "win" then rowCount rows p else 0)
        losses := (statsOf l p).losses
          + (if result = "loss" then rowCount rows p else 0)
        draws := (statsOf l p).draws
          + (if result = "win" then 0
             else if result = "loss" then 0 else rowCount rows p) } := by
  induction rows generalizing l with
  | nil => simp [rowCount, rowGoals, rowAssists]
  | cons r t ih =>
    rw [List.foldl_cons, ih, applyRow, statsOf_bump]
    by_cases hp : p = r.player
    · rw [if_pos hp]
      subst hp
      ext <;>
        simp [statsOf, rowCount_cons, rowGoals_cons, rowAssists_cons] <;>
        (try split_ifs) <;> ring
    · rw [if_neg hp]
      have hrp : ¬ r.player = p := fun hh => hp hh.symm
      ext <;>
        simp [rowCount_cons, rowGoals_cons, rowAssists_cons, hrp]

theorem statsOf_statsStep (l : StatsMap) (m : MatchRec) (p : String) :
    statsOf (statsStep l m) p =
      { statsOf l p with
        matchesPlayed := (statsOf l p).matchesPlayed + matchesContr m p
        wins := (statsOf l p).wins + winsContr m p
        draws := (statsOf l p).draws + drawsContr m p
        losses := (statsOf l p).losses + lossesContr m p
        goals_scored := (statsOf l p).goals_scored + goalsContr m p
        assists := (statsOf l p).assists + assistsContr m p
        goals_conceded := (statsOf l p).goals_conceded
          + concededContr m p } := by
  rw [statsStep]
  simp only []
  rw [statsOf_foldRows, statsOf_foldRows]
  ext <;>
    simp [matchesContr, winsContr, drawsContr, lossesContr, goalsContr,
      assistsContr, concededContr] <;>
    (try split_ifs) <;> ring

theorem statsOf_foldl_statsStep (log : List MatchRec) (l : StatsMap)
    (p : String) :
    statsOf (log.foldl statsStep l) p =
      { statsOf l p with
        matchesPlayed := (statsOf l p).matchesPlayed
          + (log.map (fun m => matchesContr m p)).sum
        wins := (statsOf l p).wins + (log.map (fun m => winsContr m p)).sum
        draws := (statsOf l p).draws + (log.map (fun m => drawsContr m p)).sum
        losses := (statsOf l p).losses
          + (log.map (fun m => lossesContr m p)).sum
        goals_scored := (statsOf l p).goals_scored
          + (log.map (fun m => goalsContr m p)).sum
        assists := (statsOf l p).assists
          + (log.map (fun m => assistsContr m p)).sum
        goals_conceded := (statsOf l p).goals_conceded
          + (log.map (fun m => concededContr m p)).sum } := by
  induction log generalizing l with
  | nil => simp
  | cons m t ih =>
    rw [List.foldl_cons, ih, statsOf_statsStep]
    ext <;> simp <;> (try split_ifs) <;> ring

theorem statsOf_seed (names : List String) :
    ∀ (acc : StatsMap), (∀ q, statsOf acc q = initStats q) →
      ∀ p, statsOf (names.foldl (fun a n => getOrInsert a n) acc) p
        = initStats p := by
  induction names with
  | nil => exact fun acc h p => h p
  | cons n t ih =>
    intro acc h p
    rw [List.foldl_cons]
    exact ih (getOrInsert acc n)
      (fun q => (statsOf_getOrInsert acc n q).trans (h q)) p

theorem statsOf_setElo (l : StatsMap) (g : String → ℝ) (p : String) :
    (statsOf (l.map (fun e => (e.1, { e.2 with elo_rating := g e.1 }))) p).name
        = (statsOf l p).name ∧
      (statsOf (l.map (fun e => (e.1, { e.2 with elo_rating := g e.1 })))
          p).matchesPlayed = (statsOf l p).matchesPlayed ∧
      (statsOf (l.map (fun e => (e.1, { e.2 with elo_rating := g e.1 })))
          p).wins = (statsOf l p).wins ∧
      (statsOf (l.map (fun e => (e.1, { e.2 with elo_rating := g e.1 })))
          p).draws = (statsOf l p).draws ∧
      (statsOf (l.map (fun e => (e.1, { e.2 with elo_rating := g e.1 })))
          p).losses = (statsOf l p).losses ∧
      (statsOf (l.map (fun e => (e.1, { e.2 with elo_rating := g e.1 })))
          p).goals_scored = (statsOf l p).goals_scored ∧
      (statsOf (l.map (fun e => (e.1, { e.2 with elo_rating := g e.1 })))
          p).assists = (statsOf l p).assists ∧
      (statsOf (l.map (fun e => (e.1, { e.2 with elo_rating := g e.1 })))
          p).goals_conceded = (statsOf l p).goals_conceded := by
  induction l with
  | nil => simp [statsOf]
  | cons e t ih => by_cases he : e.1 = p <;> simp [statsOf, he, ih]

theorem compute_counters (log : List MatchRec) (names : List String)
    (p : String) :
    (statsOf (compute_player_stats log names) p).matchesPlayed
        = (log.map (fun m => matchesContr m p)).sum ∧
      (statsOf (compute_player_stats log names) p).wins
        = (log.map (fun m => winsContr m p)).sum ∧
      (statsOf (compute_player_stats log names) p).draws
        = (log.map (fun m => drawsContr m p)).sum ∧
      (statsOf (compute_player_stats log names) p).losses
        = (log.map (fun m => lossesContr m p)).sum ∧
      (statsOf (compute_player_stats log names) p).goals_scored
        = (log.map (fun m => goalsContr m p)).sum ∧
      (statsOf (compute_player_stats log names) p).assists
        = (log.map (fun m => assistsContr m p)).sum ∧
      (statsOf (compute_player_stats log names) p).goals_conceded
        = (log.map (fun m => concededContr m p)).sum := by
  have hseed : ∀ q,
      statsOf (names.foldl (fun a n => getOrInsert a n) ([] : StatsMap)) q
        = initStats q :=
    statsOf_seed names [] (fun q => rfl)
  have hcount := statsOf_foldl_statsStep log
    (names.foldl (fun a n => getOrInsert a n) ([] : StatsMap)) p
  rw [hseed p] at hcount
  have hsets := statsOf_setElo
    (log.foldl statsStep (names.foldl (fun a n => getOrInsert a n)
      ([] : StatsMap))) (elo_ratings log) p
  simp only [compute_player_stats]
  obtain ⟨_, h1, h2, h3, h4, h5, h6, h7⟩ := hsets
  rw [h1, h2, h3, h4, h5, h6, h7, hcount]
  simp [initStats]

/-- C5: for every match between two non-empty teams, the per-player
delta applied to team A and the one applied to team B (K = 24, expected
scores from the pre-match team-average ratings) are exact negatives of
each other. -/
theorem C5_delta_zero_sum (ratings : String → ℝ) (m : MatchRec)
    (hA : m.team_a ≠ []) (hB : m.team_b ≠ []) :
    delta_a ratings m = -delta_b ratings m := by
  have h : actual_a m + actual_b m = 1 := by
    simp only [actual_a, actual_b]
    split_ifs <;> norm_num
  simp only [delta_a, delta_b]
  linear_combination ELO_K_FACTOR * h

/-- Witness for C5 at the concrete example match. -/
theorem C5_witness :
    mExample.team_a ≠ [] ∧ mExample.team_b ≠ [] ∧
      delta_a (fun _ => ELO_INITIAL_RATING) mExample =
        -delta_b (fun _ => ELO_INITIAL_RATING) mExample := by
  refine ⟨by decide, by decide, ?_⟩
  exact C5_delta_zero_sum (fun _ => ELO_INITIAL_RATING) mExample
    (by decide) (by decide)

/-- C4: the spec's end-to-end example.  On the one-match log `[mExample]`
(P1 on A with 2 goals, P2 on B with 1, date 2024-01-01, id m1) the
derived scores are 2:1 with winner "A", the expected score at equal
baseline ratings is 0.5, the team-A delta is 24 · (1 − 0.5) = 12, the
final ratings are P1 = 1012 and P2 = 988, and the aggregate stats are
P1: matches 1, wins 1, goals 2 and P2: matches 1, losses 1, goals 1. -/
theorem C4_end_to_end_example :
    mExample.goals_a = 2 ∧ mExample.goals_b = 1 ∧
      mExample.winner = "A" ∧
      expected_score ELO_INITIAL_RATING ELO_INITIAL_RATING = 0.5 ∧
      delta_a (fun _ => ELO_INITIAL_RATING) mExample = 12 ∧
      elo_ratings [mExample] "P1" = 1012 ∧
      elo_ratings [mExample] "P2" = 988 ∧
      (statsOf (compute_player_stats [mExample] ["P1", "P2"])
          "P1").matchesPlayed = 1 ∧
      (statsOf (compute_player_stats [mExample] ["P1", "P2"]) "P1").wins = 1 ∧
      (statsOf (compute_player_stats [mExample] ["P1", "P2"])
          "P1").goals_scored = 2 ∧
      (statsOf (compute_player_stats [mExample] ["P1", "P2"])
          "P2").matchesPlayed = 1 ∧
      (statsOf (compute_player_stats [mExample] ["P1", "P2"]) "P2").losses
          = 1 ∧
      (statsOf (compute_player_stats [mExample] ["P1", "P2"])
          "P2").goals_scored = 1 := by
  have hE : expected_score ELO_INITIAL_RATING ELO_INITIAL_RATING = 0.5 := by
    have h0 : (ELO_INITIAL_RATING - ELO_INITIAL_RATING) / ELO_SCALE = 0 := by
      simp
    rw [expected_score, h0, Real.rpow_zero]
    norm_num
  have hAnames : teamANames mExample = ["P1"] := rfl
  have hBnames : teamBNames mExample = ["P2"] := rfl
  have hrate :
      team_rating (fun _ => ELO_INITIAL_RATING) ["P1"] = ELO_INITIAL_RATING ∧
        team_rating (fun _ => ELO_INITIAL_RATING) ["P2"]
          = ELO_INITIAL_RATING := by
    constructor <;> · simp [team_rating]
  have hda : delta_a (fun _ => ELO_INITIAL_RATING) mExample = 12 := by
    rw [delta_a, hAnames, hBnames, hrate.1, hrate.2, hE]
    have ha : actual_a mExample = 1.0 := rfl
    rw [ha, ELO_K_FACTOR]
    norm_num
  have hdb : delta_b (fun _ => ELO_INITIAL_RATING) mExample = -12 := by
    rw [delta_b, hAnames, hBnames, hrate.1, hrate.2, hE]
    have hb : actual_b mExample = 0.0 := rfl
    rw [hb, ELO_K_FACTOR]
    norm_num
  have hfold :
      elo_ratings [mExample] = eloStep (fun _ => ELO_INITIAL_RATING) mExample :=
    rfl
  have hcond : ¬(teamANames mExample = [] ∨ teamBNames mExample = []) := by
    decide
  have hstep : ∀ p, eloStep (fun _ => ELO_INITIAL_RATING) mExample p =
      ELO_INITIAL_RATING
        + ((teamANames mExample).count p : ℝ)
          * delta_a (fun _ => ELO_INITIAL_RATING) mExample
        + ((teamBNames mExample).count p : ℝ)
          * delta_b (fun _ => ELO_INITIAL_RATING) mExample := by
    intro p
    rw [eloStep, if_neg hcond]
  have hcA1 : (teamANames mExample).count "P1" = 1 := by decide
  have hcB1 : (teamBNames mExample).count "P1" = 0 := by decide
  have hcA2 : (teamANames mExample).count "P2" = 0 := by decide
  have hcB2 : (teamBNames mExample).count "P2" = 1 := by decide
  refine ⟨rfl, rfl, rfl, hE, hda, ?_, ?_, ?_, ?_, ?_, ?_, ?_, ?_⟩
  · rw [hfold, hstep "P1", hcA1, hcB1, hda, hdb, ELO_INITIAL_RATING]
    norm_num
  · rw [hfold, hstep "P2", hcA2, hcB2, hda, hdb, ELO_INITIAL_RATING]
    norm_num
  all_goals decide

/-- Each match adds exactly one result (win, draw or loss) per counted
roster row, so the three result contributions always partition the
match contribution. -/
theorem contr_partition (m : MatchRec) (p : String) :
    winsContr m p + drawsContr m p + lossesContr m p = matchesContr m p := by
  unfold winsContr drawsContr lossesContr matchesContr result_a result_b
  by_cases h1 : m.goals_a > m.goals_b
  · simp [h1]
  · by_cases h2 : m.goals_b > m.goals_a
    · simp [h1, h2]
      ring
    · simp [h1, h2]

/-- C10: every PlayerStats bundle of the aggregate stats builder
satisfies wins + draws + losses = matches. -/
theorem C10_result_partition (log : List MatchRec) (names : List String)
    (p : String) :
    (statsOf (compute_player_stats log names) p).wins
        + (statsOf (compute_player_stats log names) p).draws
        + (statsOf (compute_player_stats log names) p).losses
      = (statsOf (compute_player_stats log names) p).matchesPlayed := by
  obtain ⟨hm, hw, hd, hl, _, _, _⟩ := compute_counters log names p
  rw [hm, hw, hd, hl, ← List.sum_map_add, ← List.sum_map_add]
  exact congrArg List.sum
    (List.map_congr_left (fun mm _ => contr_partition mm p))

/-- C9: the aggregate stats builder is order-independent — permuting the
match log leaves every player's counters and derived rates unchanged. -/
theorem C9_aggregate_perm_invariant (log₁ log₂ : List MatchRec)
    (names : List String) (hp : log₁.Perm log₂) (p : String) :
    (statsOf (compute_player_stats log₁ names) p).matchesPlayed
        = (statsOf (compute_player_stats log₂ names) p).matchesPlayed ∧
      (statsOf (compute_player_stats log₁ names) p).wins
        = (statsOf (compute_player_stats log₂ names) p).wins ∧
      (statsOf (compute_player_stats log₁ names) p).draws
        = (statsOf (compute_player_stats log₂ names) p).draws ∧
      (statsOf (compute_player_stats log₁ names) p).losses
        = (statsOf (compute_player_stats log₂ names) p).losses ∧
      (statsOf (compute_player_stats log₁ names) p).goals_scored
        = (statsOf (compute_player_stats log₂ names) p).goals_scored ∧
      (statsOf (compute_player_stats log₁ names) p).assists
        = (statsOf (compute_player_stats log₂ names) p).assists ∧
      (statsOf (compute_player_stats log₁ names) p).goals_conceded
        = (statsOf (compute_player_stats log₂ names) p).goals_conceded ∧
      (statsOf (compute_player_stats log₁ names) p).win_rate
        = (statsOf (compute_player_stats log₂ names) p).win_rate ∧
      (statsOf (compute_player_stats log₁ names) p).goals_per_match
        = (statsOf (compute_player_stats log₂ names) p).goals_per_match := by
  obtain ⟨hm1, hw1, hd1, hl1, hg1, ha1, hc1⟩ := compute_counters log₁ names p
  obtain ⟨hm2, hw2, hd2, hl2, hg2, ha2, hc2⟩ := compute_counters log₂ names p
  have hsum : ∀ f : MatchRec → Int, (log₁.map f).sum = (log₂.map f).sum :=
    fun f => (hp.map f).sum_eq
  have hm : (statsOf (compute_player_stats log₁ names) p).matchesPlayed
      = (statsOf (compute_player_stats log₂ names) p).matchesPlayed := by
    rw [hm1, hm2]; exact hsum _
  have hw : (statsOf (compute_player_stats log₁ names) p).wins
      = (statsOf (compute_player_stats log₂ names) p).wins := by
    rw [hw1, hw2]; exact hsum _
  have hg : (statsOf (compute_player_stats log₁ names) p).goals_scored
      = (statsOf (compute_player_stats log₂ names) p).goals_scored := by
    rw [hg1, hg2]; exact hsum _
  refine ⟨hm, hw, ?_, ?_, hg, ?_, ?_, ?_, ?_⟩
  · rw [hd1, hd2]; exact hsum _
  · rw [hl1, hl2]; exact hsum _
  · rw [ha1, ha2]; exact hsum _
  · rw [hc1, hc2]; exact hsum _
  · rw [PlayerStats.win_rate, PlayerStats.win_rate, hm, hw]
  · rw [PlayerStats.goals_per_match, PlayerStats.goals_per_match, hm, hg]

/-- Witness for C9 at a concrete two-match log and its reversal. -/
theorem C9_witness :
    ([mExample, mExample2].Perm [mExample2, mExample]) ∧
      ((statsOf (compute_player_stats [mExample, mExample2] ["P1", "P2"])
            "P1").matchesPlayed
          = (statsOf (compute_player_stats [mExample2, mExample] ["P1", "P2"])
            "P1").matchesPlayed ∧
        (statsOf (compute_player_stats [mExample, mExample2] ["P1", "P2"])
            "P1").wins
          = (statsOf (compute_player_stats [mExample2, mExample] ["P1", "P2"])
            "P1").wins ∧
        (statsOf (compute_player_stats [mExample, mExample2] ["P1", "P2"])
            "P1").draws
          = (statsOf (compute_player_stats [mExample2, mExample] ["P1", "P2"])
            "P1").draws ∧
        (statsOf (compute_player_stats [mExample, mExample2] ["P1", "P2"])
            "P1").losses
          = (statsOf (compute_player_stats [mExample2, mExample] ["P1", "P2"])
            "P1").losses ∧
        (statsOf (compute_player_stats [mExample, mExample2] ["P1", "P2"])
            "P1").goals_scored
          = (statsOf (compute_player_stats [mExample2, mExample] ["P1", "P2"])
            "P1").goals_scored ∧
        (statsOf (compute_player_stats [mExample, mExample2] ["P1", "P2"])
            "P1").assists
          = (statsOf (compute_player_stats [mExample2, mExample] ["P1", "P2"])
            "P1").assists ∧
        (statsOf (compute_player_stats [mExample, mExample2] ["P1", "P2"])
            "P1").goals_conceded
          = (statsOf (compute_player_stats [mExample2, mExample] ["P1", "P2"])
            "P1").goals_conceded ∧
        (statsOf (compute_player_stats [mExample, mExample2] ["P1", "P2"])
            "P1").win_rate
          = (statsOf (compute_player_stats [mExample2, mExample] ["P1", "P2"])
            "P1").win_rate ∧
        (statsOf (compute_player_stats [mExample, mExample2] ["P1", "P2"])
            "P1").goals_per_match
          = (statsOf (compute_player_stats [mExample2, mExample] ["P1", "P2"])
            "P1").goals_per_match) :=
  ⟨by decide,
    C9_aggregate_perm_invariant [mExample, mExample2] [mExample2, mExample]
      ["P1", "P2"] (by decide) "P1"⟩

theorem rowCount_nonneg (rows : List MatchPlayerRow) (p : String) :
    0 ≤ rowCount rows p := by
  simp [rowCount]

theorem rowCount_pos_of_mem (rows : List MatchPlayerRow)
    (r : MatchPlayerRow) (hr : r ∈ rows) : 1 ≤ rowCount rows r.player := by
  have hmem : r ∈ rows.filter (fun x => x.player = r.player) :=
    List.mem_filter.mpr ⟨hr, by simp⟩
  have hpos : 0 < (rows.filter (fun x => x.player = r.player)).length :=
    List.length_pos_of_mem hmem
  rw [rowCount]
  exact_mod_cast hpos

/-- C3: a match with an empty team contributes no rating update (the
rating replay state is unchanged), is skipped by the timeline builders,
yet still adds its per-row contributions to every present player-row's
aggregate counters. -/
theorem C3_empty_team_asymmetry (m : MatchRec)
    (h : m.team_a = [] ∨ m.team_b = []) :
    (∀ ratings : String → ℝ, eloStep ratings m = ratings) ∧
      (∀ (pn : String) (st : (String → ℝ) × List TimelinePoint),
        timelineStep pn st m = st) ∧
      (∀ (names : List String) (st : MultiState),
        multiStep names st m = st) ∧
      (∀ (l : StatsMap) (p : String),
        statsOf (statsStep l m) p =
          { statsOf l p with
            matchesPlayed := (statsOf l p).matchesPlayed + matchesContr m p
            wins := (statsOf l p).wins + winsContr m p
            draws := (statsOf l p).draws + drawsContr m p
            losses := (statsOf l p).losses + lossesContr m p
            goals_scored := (statsOf l p).goals_scored + goalsContr m p
            assists := (statsOf l p).assists + assistsContr m p
            goals_conceded := (statsOf l p).goals_conceded
              + concededContr m p }) ∧
      (∀ r ∈ m.players, (r.team = "A" ∨ r.team = "B") →
        1 ≤ matchesContr m r.player) := by
  have hguard : teamANames m = [] ∨ teamBNames m = [] := by
    rcases h with h | h
    · exact Or.inl (by simp [teamANames, h])
    · exact Or.inr (by simp [teamBNames, h])
  refine ⟨?_, ?_, ?_, fun l p => statsOf_statsStep l m p, ?_⟩
  · intro ratings
    rw [eloStep, if_pos hguard]
  · intro pn st
    rw [timelineStep, if_pos hguard]
  · intro names st
    rw [multiStep, if_pos hguard]
  · intro r hr hteam
    rw [matchesContr]
    rcases hteam with ht | ht
    · have hmem : r ∈ m.team_a := List.mem_filter.mpr ⟨hr, by simp [ht]⟩
      have := rowCount_pos_of_mem m.team_a r hmem
      have := rowCount_nonneg m.team_b r.player
      omega
    · have hmem : r ∈ m.team_b := List.mem_filter.mpr ⟨hr, by simp [ht]⟩
      have := rowCount_pos_of_mem m.team_b r hmem
      have := rowCount_nonneg m.team_a r.player
      omega

/-- Witness for C3 at a concrete all-team-B match. -/
theorem C3_witness :
    (mEmptyA.team_a = [] ∨ mEmptyA.team_b = []) ∧
      ((∀ ratings : String → ℝ, eloStep ratings mEmptyA = ratings) ∧
        (∀ (pn : String) (st : (String → ℝ) × List TimelinePoint),
          timelineStep pn st mEmptyA = st) ∧
        (∀ (names : List String) (st : MultiState),
          multiStep names st mEmptyA = st) ∧
        (∀ (l : StatsMap) (p : String),
          statsOf (statsStep l mEmptyA) p =
            { statsOf l p with
              matchesPlayed := (statsOf l p).matchesPlayed
                + matchesContr mEmptyA p
              wins := (statsOf l p).wins + winsContr mEmptyA p
              draws := (statsOf l p).draws + drawsContr mEmptyA p
              losses := (statsOf l p).losses + lossesContr mEmptyA p
              goals_scored := (statsOf l p).goals_scored
                + goalsContr mEmptyA p
              assists := (statsOf l p).assists + assistsContr mEmptyA p
              goals_conceded := (statsOf l p).goals_conceded
                + concededContr mEmptyA p }) ∧
        (∀ r ∈ mEmptyA.players, (r.team = "A" ∨ r.team = "B") →
          1 ≤ matchesContr mEmptyA r.player)) :=
  ⟨Or.inl (by decide), C3_empty_team_asymmetry mEmptyA (Or.inl (by decide))⟩

/-- C6: a stored score-override pair is what determines the team scores,
the winner label, the replay's actual scores, each team's result label,
and the conceded-goals increments, while each player's own goal and
assist counters still come from that player's recorded rows. -/
theorem C6_override_semantics (m : MatchRec) (ga gb : Int)
    (ha : m.goals_a_override = some ga) (hb : m.goals_b_override = some gb) :
    m.goals_a = ga ∧ m.goals_b = gb ∧
      m.winner = (if ga > gb then "A" else if gb > ga then "B" else "Draw") ∧
      actual_a m = (if ga > gb then 1.0 else if gb > ga then 0.0 else 0.5) ∧
      actual_b m = (if ga > gb then 0.0 else if gb > ga then 1.0 else 0.5) ∧
      result_a m =
        (if ga > gb then "win" else if gb > ga then "loss" else "draw") ∧
      result_b m =
        (if ga > gb then "loss" else if gb > ga then "win" else "draw") ∧
      (∀ p, concededContr m p =
        rowCount m.team_a p * gb + rowCount m.team_b p * ga) ∧
      (∀ p, goalsContr m p = rowGoals m.team_a p + rowGoals m.team_b p) ∧
      (∀ p, assistsContr m p =
        rowAssists m.team_a p + rowAssists m.team_b p) ∧
      (∀ (l : StatsMap) (p : String),
        statsOf (statsStep l m) p =
          { statsOf l p with
            matchesPlayed := (statsOf l p).matchesPlayed + matchesContr m p
            wins := (statsOf l p).wins
              + ((if ga > gb then rowCount m.team_a p else 0)
                + (if gb > ga then rowCount m.team_b p else 0))
            losses := (statsOf l p).losses
              + ((if gb > ga then rowCount m.team_a p else 0)
                + (if ga > gb then rowCount m.team_b p else 0))
            draws := (statsOf l p).draws
              + (if ga = gb then matchesContr m p else 0)
            goals_scored := (statsOf l p).goals_scored
              + (rowGoals m.team_a p + rowGoals m.team_b p)
            assists := (statsOf l p).assists
              + (rowAssists m.team_a p + rowAssists m.team_b p)
            goals_conceded := (statsOf l p).goals_conceded
              + (rowCount m.team_a p * gb + rowCount m.team_b p * ga) }) := by
  have hga : m.goals_a = ga := by rw [MatchRec.goals_a, ha]
  have hgb : m.goals_b = gb := by rw [MatchRec.goals_b, hb]
  have hwins : ∀ p, winsContr m p =
      (if ga > gb then rowCount m.team_a p else 0)
        + (if gb > ga then rowCount m.team_b p else 0) := by
    intro p
    rw [winsContr, result_a, result_b, hga, hgb]
    rcases lt_trichotomy ga gb with h | h | h
    · simp [h, not_lt_of_gt h]
    · simp [h, lt_irrefl]
    · simp [h, not_lt_of_gt h]
  have hlosses : ∀ p, lossesContr m p =
      (if gb > ga then rowCount m.team_a p else 0)
        + (if ga > gb then rowCount m.team_b p else 0) := by
    intro p
    rw [lossesContr, result_a, result_b, hga, hgb]
    rcases lt_trichotomy ga gb with h | h | h
    · simp [h, not_lt_of_gt h]
    · simp [h, lt_irrefl]
    · simp [h, not_lt_of_gt h]
  have hdraws : ∀ p, drawsContr m p =
      (if ga = gb then matchesContr m p else 0) := by
    intro p
    rw [drawsContr, result_a, result_b, hga, hgb, matchesContr]
    rcases lt_trichotomy ga gb with h | h | h
    · simp [h, not_lt_of_gt h, ne_of_lt h]
    · simp [h, lt_irrefl]
    · simp [h, not_lt_of_gt h, (ne_of_lt h).symm]
  refine ⟨hga, hgb, ?_, ?_, ?_, ?_, ?_, ?_, fun p => rfl, fun p => rfl, ?_⟩
  · rw [MatchRec.winner, hga, hgb]
  · rw [actual_a, hga, hgb]
  · rw [actual_b, hga, hgb]
  · rw [result_a, hga, hgb]
  · rw [result_b, hga, hgb]
  · intro p
    rw [concededContr, hga, hgb]
  · intro l p
    rw [statsOf_statsStep, hwins p, hlosses p, hdraws p]
    ext <;> simp [goalsContr, assistsContr, concededContr, hga, hgb]

/-- Witness for C6 at the concrete override match (stored score 3:0,
summed row goals 1 for A and 5 for B). -/
theorem C6_witness :
    mOverride.goals_a_override = some 3 ∧
      mOverride.goals_b_override = some 0 ∧
      (mOverride.goals_a = 3 ∧ mOverride.goals_b = 0 ∧
        mOverride.winner =
          (if (3 : Int) > 0 then "A"
           else if (0 : Int) > 3 then "B" else "Draw") ∧
        actual_a mOverride =
          (if (3 : Int) > 0 then 1.0
           else if (0 : Int) > 3 then 0.0 else 0.5) ∧
        actual_b mOverride =
          (if (3 : Int) > 0 then 0.0
           else if (0 : Int) > 3 then 1.0 else 0.5) ∧
        result_a mOverride =
          (if (3 : Int) > 0 then "win"
           else if (0 : Int) > 3 then "loss" else "draw") ∧
        result_b mOverride =
          (if (3 : Int) > 0 then "loss"
           else if (0 : Int) > 3 then "win" else "draw") ∧
        (∀ p, concededContr mOverride p =
          rowCount mOverride.team_a p * 0 + rowCount mOverride.team_b p * 3) ∧
        (∀ p, goalsContr mOverride p =
          rowGoals mOverride.team_a p + rowGoals mOverride.team_b p) ∧
        (∀ p, assistsContr mOverride p =
          rowAssists mOverride.team_a p + rowAssists mOverride.team_b p) ∧
        (∀ (l : StatsMap) (p : String),
          statsOf (statsStep l mOverride) p =
            { statsOf l p with
              matchesPlayed := (statsOf l p).matchesPlayed
                + matchesContr mOverride p
              wins := (statsOf l p).wins
                + ((if (3 : Int) > 0 then rowCount mOverride.team_a p else 0)
                  + (if (0 : Int) > 3 then rowCount mOverride.team_b p
                     else 0))
              losses := (statsOf l p).losses
                + ((if (0 : Int) > 3 then rowCount mOverride.team_a p else 0)
                  + (if (3 : Int) > 0 then rowCount mOverride.team_b p
                     else 0))
              draws := (statsOf l p).draws
                + (if (3 : Int) = 0 then matchesContr mOverride p else 0)
              goals_scored := (statsOf l p).goals_scored
                + (rowGoals mOverride.team_a p + rowGoals mOverride.team_b p)
              assists := (statsOf l p).assists
                + (rowAssists mOverride.team_a p
                  + rowAssists mOverride.team_b p)
              goals_conceded := (statsOf l p).goals_conceded
                + (rowCount mOverride.team_a p * 0
                  + rowCount mOverride.team_b p * 3) })) :=
  ⟨rfl, rfl, C6_override_semantics mOverride 3 0 rfl rfl⟩

theorem finalizeBucket_matchesPlayed (b : Bucket) :
    (finalizeBucket b).matchesPlayed = b.matchesPlayed := rfl

theorem onOff_sum_aux (primary : String) (partners : List String)
    (log : List MatchRec) :
    ∀ st : Bucket × Bucket,
      (log.foldl (onOffStep primary partners) st).1.matchesPlayed
          + (log.foldl (onOffStep primary partners) st).2.matchesPlayed
        = st.1.matchesPlayed + st.2.matchesPlayed
          + ((log.filter
              (fun m => (team_of m primary).isSome)).length : Int) := by
  induction log with
  | nil => simp
  | cons m t ih =>
    intro st
    rw [List.foldl_cons, ih, List.filter_cons]
    rcases hteam : team_of m primary with _ | pt
    · simp [onOffStep, hteam]
    · by_cases hall : partners.all (fun q => team_of m q = some pt) = true
      · simp [onOffStep, hteam, hall, bucketAdd]
        push_cast
        ring
      · simp [onOffStep, hteam, hall, bucketAdd]
        push_cast
        ring

/-- C7: the on/off split assigns every match the primary player appears
in to exactly one bucket — the "with group" and "without group" match
counts add up to the primary's total appearance count. -/
theorem C7_on_off_partition (log : List MatchRec) (primary : String)
    (partners : List String) :
    (primary_on_off_stats log primary partners).1.matchesPlayed
        + (primary_on_off_stats log primary partners).2.matchesPlayed
      = ((log.filter (fun m => (team_of m primary).isSome)).length : Int) := by
  have h := onOff_sum_aux primary partners log (emptyBucket, emptyBucket)
  rw [primary_on_off_stats]
  simp only [finalizeBucket_matchesPlayed]
  rw [h]
  simp [emptyBucket]

theorem matchKey_eq_of_le_le (a b : MatchRec) (h1 : matchLE a b)
    (h2 : matchLE b a) : matchKey a = matchKey b := by
  rcases h1 with h1 | ⟨hd1, hi1⟩ <;> rcases h2 with h2 | ⟨hd2, hi2⟩
  · omega
  · omega
  · omega
  · rw [matchKey, matchKey, hd1, le_antisymm hi1 hi2]

theorem sorted_unique_of_nodup_keys :
    ∀ (l₁ l₂ : List MatchRec), l₁.Perm l₂ → l₁.Sorted matchLE →
      l₂.Sorted matchLE → (l₁.map matchKey).Nodup → l₁ = l₂ := by
  intro l₁
  induction l₁ with
  | nil =>
    intro l₂ hp _ _ _
    exact (hp.symm.eq_nil).symm
  | cons a t ih =>
    intro l₂ hp h₁ h₂ hnd
    cases l₂ with
    | nil => exact absurd hp.eq_nil (by simp)
    | cons b u =>
      by_cases hab : a = b
      · subst hab
        have hp' : t.Perm u := hp.cons_inv
        have heq : t = u := ih u hp' h₁.of_cons h₂.of_cons
          (by
            have : (matchKey a :: t.map matchKey).Nodup := by simpa using hnd
            exact (List.nodup_cons.mp this).2)
        rw [heq]
      · exfalso
        have ha2 : a ∈ b :: u := hp.subset (List.mem_cons_self a t)
        have ha2u : a ∈ u := by
          rcases List.mem_cons.mp ha2 with h | h
          · exact absurd h hab
          · exact h
        have hb1 : b ∈ a :: t := hp.symm.subset (List.mem_cons_self b u)
        have hb1t : b ∈ t := by
          rcases List.mem_cons.mp hb1 with h | h
          · exact absurd h.symm hab
          · exact h
        have hab1 : matchLE a b := (List.sorted_cons.mp h₁).1 b hb1t
        have hba : matchLE b a := (List.sorted_cons.mp h₂).1 a ha2u
        have hk : matchKey a = matchKey b := matchKey_eq_of_le_le a b hab1 hba
        have hnda : matchKey a ∉ t.map matchKey := by
          have : (matchKey a :: t.map matchKey).Nodup := by simpa using hnd
          exact (List.nodup_cons.mp this).1
        exact hnda (hk ▸ List.mem_map_of_mem matchKey hb1t)

/-- C1 (amended): because the rating engine sorts the log by
(date, match_id) before replaying, its final ratings are invariant under
every permutation of the input log whenever the (date, match_id) keys
are pairwise distinct — scrambling the input order never changes the
final ratings. -/
theorem C1_order_insensitive (log₁ log₂ : List MatchRec)
    (hp : log₁.Perm log₂) (hnd : (log₁.map matchKey).Nodup) :
    elo_ratings log₁ = elo_ratings log₂ := by
  have hperm : (sorted_matches log₁).Perm (sorted_matches log₂) :=
    (List.perm_insertionSort matchLE log₁).trans
      (hp.trans (List.perm_insertionSort matchLE log₂).symm)
  have hnd₁ : ((sorted_matches log₁).map matchKey).Nodup :=
    (((List.perm_insertionSort matchLE log₁).map matchKey).symm).nodup hnd
  have hs : sorted_matches log₁ = sorted_matches log₂ :=
    sorted_unique_of_nodup_keys _ _ hperm
      (List.sorted_insertionSort matchLE log₁)
      (List.sorted_insertionSort matchLE log₂) hnd₁
  rw [elo_ratings, elo_ratings, hs]

/-- Counterexample refuting C1 as stated: this two-match log has
distinct (date, match_id) keys, the reversed order scrambles the
ascending (date, id) order, and yet the final ratings are identical —
scrambling the input order does not change the rating engine's
outputs. -/
theorem C1_counterexample :
    ([mExample2, mExample].Perm [mExample, mExample2]) ∧
      ¬ List.Sorted matchLE [mExample2, mExample] ∧
      List.Sorted matchLE [mExample, mExample2] ∧
      elo_ratings [mExample2, mExample] = elo_ratings [mExample, mExample2] := by
  refine ⟨by decide, ?_, ?_, ?_⟩
  · intro h
    have := (List.sorted_cons.mp h).1 mExample (by simp)
    rcases this with h1 | ⟨h1, _⟩
    · simp [mExample, mExample2] at h1
    · simp [mExample, mExample2] at h1
  · constructor
    · intro b hb
      simp only [List.mem_singleton] at hb
      subst hb
      exact Or.inl (by norm_num [mExample, mExample2])
    · simp
  · have hs : sorted_matches [mExample2, mExample]
        = sorted_matches [mExample, mExample2] := by decide
    rw [elo_ratings, elo_ratings, hs]

/-- Witness for the amended C1 at the concrete scrambled two-match log. -/
theorem C1_witness :
    ([mExample2, mExample].Perm [mExample, mExample2]) ∧
      (([mExample2, mExample].map matchKey).Nodup) ∧
      elo_ratings [mExample2, mExample] = elo_ratings [mExample, mExample2] :=
  ⟨by decide, by decide,
    C1_order_insensitive [mExample2, mExample] [mExample, mExample2]
      (by decide) (by decide)⟩

theorem pairwise_ranking {α β γ : Type} [LinearOrder α] [LinearOrder β]
    [LinearOrder γ] (k₁ : PlayerStats → α) (k₂ : PlayerStats → β)
    (k₃ : PlayerStats → γ) (l : List PlayerStats) (n : Nat) :
    List.Pairwise
      (fun a b => k₁ a = k₁ b → (k₂ b ≤ k₂ a ∧ (k₂ a = k₂ b → k₃ b ≤ k₃ a)))
      ((l.insertionSort (descBy3 k₁ k₂ k₃)).take n) := by
  have hs : List.Pairwise (descBy3 k₁ k₂ k₃)
      (l.insertionSort (descBy3 k₁ k₂ k₃)) :=
    List.sorted_insertionSort _ l
  refine List.Pairwise.sublist (List.take_sublist n _) (hs.imp ?_)
  intro a b h h1
  rcases h with h | ⟨_, h2⟩
  · exact absurd h1.symm (ne_of_lt h)
  · rcases h2 with h2 | ⟨heq2, h3⟩
    · exact ⟨le_of_lt h2, fun h4 => absurd h4.symm (ne_of_lt h2)⟩
    · exact ⟨le_of_eq heq2.symm, fun _ => h3⟩

/-- C2 (amended): in each dashboard ranking, ties on the primary metric
rank by the claimed secondary match-count direction (fewer matches first
for goals and assists, more matches first for goals/match, win rate and
rating), but the tertiary case-insensitive name key is DESCENDING
(`reverse=True` also reverses the name component), so on full ties the
lexicographically larger lowercased name appears earlier, not the
smaller. -/
theorem C2_tie_breaks (log : List MatchRec) (names : List String) :
    List.Pairwise (fun a b => a.goals_scored = b.goals_scored →
        (a.matchesPlayed ≤ b.matchesPlayed ∧
          (a.matchesPlayed = b.matchesPlayed →
            lowerKey b.name ≤ lowerKey a.name)))
      (build_dashboard log names).top_scorers ∧
      List.Pairwise (fun a b => a.assists = b.assists →
          (a.matchesPlayed ≤ b.matchesPlayed ∧
            (a.matchesPlayed = b.matchesPlayed →
              lowerKey b.name ≤ lowerKey a.name)))
        (build_dashboard log names).top_assists ∧
      List.Pairwise (fun a b => a.goals_per_match = b.goals_per_match →
          (b.matchesPlayed ≤ a.matchesPlayed ∧
            (a.matchesPlayed = b.matchesPlayed →
              lowerKey b.name ≤ lowerKey a.name)))
        (build_dashboard log names).goals_per_match_ranking ∧
      List.Pairwise (fun a b => a.win_rate = b.win_rate →
          (b.matchesPlayed ≤ a.matchesPlayed ∧
            (a.matchesPlayed = b.matchesPlayed →
              lowerKey b.name ≤ lowerKey a.name)))
        (build_dashboard log names).win_rate_ranking ∧
      List.Pairwise (fun a b => a.elo_rating = b.elo_rating →
          (b.matchesPlayed ≤ a.matchesPlayed ∧
            (a.matchesPlayed = b.matchesPlayed →
              lowerKey b.name ≤ lowerKey a.name)))
        (build_dashboard log names).elo_ranking := by
  refine ⟨?_, ?_, ?_, ?_, ?_⟩
  · have h := pairwise_ranking (fun s => s.goals_scored)
      (fun s => -s.matchesPlayed) (fun s => lowerKey s.name)
      ((compute_player_stats log names).map (fun e => e.2)) 10
    exact h.imp (fun h h1 => by
      obtain ⟨hm, hn⟩ := h h1
      exact ⟨by omega, fun he => hn (by omega)⟩)
  · have h := pairwise_ranking (fun s => s.assists)
      (fun s => -s.matchesPlayed) (fun s => lowerKey s.name)
      ((compute_player_stats log names).map (fun e => e.2)) 10
    exact h.imp (fun h h1 => by
      obtain ⟨hm, hn⟩ := h h1
      exact ⟨by omega, fun he => hn (by omega)⟩)
  · exact pairwise_ranking (fun s => s.goals_per_match)
      (fun s => s.matchesPlayed) (fun s => lowerKey s.name)
      (((compute_player_stats log names).map (fun e => e.2)).filter
        (fun s => decide (1 ≤ s.matchesPlayed))) 10
  · exact pairwise_ranking (fun s => s.win_rate)
      (fun s => s.matchesPlayed) (fun s => lowerKey s.name)
      (((compute_player_stats log names).map (fun e => e.2)).filter
        (fun s => decide (1 ≤ s.matchesPlayed))) 10
  · exact pairwise_ranking (fun s => s.elo_rating)
      (fun s => s.matchesPlayed) (fun s => lowerKey s.name)
      ((compute_player_stats log names).map (fun e => e.2)) 10

/-- Counterexample refuting C2 as stated: on the concrete one-match log
`[mTie]`, "alba" and "bruno" are tied on goals (1 each) and on match
count (1 each), "alba" is the case-insensitively smaller name, yet the
scorers ranking lists "bruno" first — the tertiary name key is
descending, not ascending. -/
theorem C2_counterexample :
    ((build_dashboard [mTie] ["alba", "bruno", "carlo"]).top_scorers.map
        (fun s => s.name)) = ["bruno", "alba", "carlo"] ∧
      ((build_dashboard [mTie] ["alba", "bruno", "carlo"]).top_scorers.map
        (fun s => s.goals_scored)) = [1, 1, 0] ∧
      ((build_dashboard [mTie] ["alba", "bruno", "carlo"]).top_scorers.map
        (fun s => s.matchesPlayed)) = [1, 1, 1] ∧
      lowerKey "alba" < lowerKey "bruno" :=
  ⟨by decide, by decide, by decide, by decide⟩

theorem multiStep_len (names : List String) (st : MultiState) (m : MatchRec)
    (h : ∀ p ∈ names, (st.series p).length = st.labels.length) :
    ∀ p ∈ names, ((multiStep names st m).series p).length
      = (multiStep names st m).labels.length := by
  intro p hp
  by_cases h1 : teamANames m = [] ∨ teamBNames m = []
  · simp only [multiStep, if_pos h1]
    exact h p hp
  · by_cases h2 : ∀ q ∈ names, q ∉ rowNames m
    · simp only [multiStep, if_neg h1, if_pos h2]
      exact h p hp
    · simp only [multiStep, if_neg h1, if_neg h2, if_pos hp]
      rw [List.length_append, List.length_append, h p hp]
      simp

/-- C8: in the multi-player cumulative series, every emitted row carries
the explicit no-data marker for each subject who did not play that
match, a real snapshot for each subject who did, and a date label
whenever any subject played; and every subject's series (hence every
metric's value list) stays exactly as long as the label list.  (The
callers pass duplicate-free subject lists; the Python per-name
dictionaries assume as much.) -/
theorem C8_no_data_markers (log : List MatchRec) (names : List String)
    (hnd : names.Nodup) :
    (∀ p ∈ names,
      ((multi_player_cumulative_series log names).series p).length
        = (multi_player_cumulative_series log names).labels.length) ∧
      (∀ (metric : SeriesSnapshot → ℝ), ∀ p ∈ names,
        (metricValues metric (multi_player_cumulative_series log names)
            p).length
          = (multi_player_cumulative_series log names).labels.length) ∧
      (∀ (st : MultiState) (m : MatchRec), teamANames m ≠ [] →
        teamBNames m ≠ [] → (∃ q ∈ names, q ∈ rowNames m) →
        (multiStep names st m).labels = st.labels ++ [m.date] ∧
          (∀ p ∈ names, p ∉ rowNames m →
            (multiStep names st m).series p = st.series p ++ [none]) ∧
          (∀ p ∈ names, p ∈ rowNames m →
            ∃ v, (multiStep names st m).series p
              = st.series p ++ [some v])) := by
  have hlen : ∀ (l : List MatchRec) (st : MultiState),
      (∀ p ∈ names, (st.series p).length = st.labels.length) →
      ∀ p ∈ names, ((l.foldl (multiStep names) st).series p).length
        = ((l.foldl (multiStep names) st).labels).length := by
    intro l
    induction l with
    | nil => exact fun st h => h
    | cons m t ih =>
      intro st h
      rw [List.foldl_cons]
      exact ih (multiStep names st m) (multiStep_len names st m h)
  have h1 : ∀ p ∈ names,
      ((multi_player_cumulative_series log names).series p).length
        = (multi_player_cumulative_series log names).labels.length := by
    rw [multi_player_cumulative_series]
    exact hlen (sorted_matches log) multiInit (fun p _ => rfl)
  refine ⟨h1, ?_, ?_⟩
  · intro metric p hp
    rw [metricValues, List.length_map]
    exact h1 p hp
  · intro st m hA hB hplay
    have hg : ¬(teamANames m = [] ∨ teamBNames m = []) := by
      rintro (h | h)
      · exact hA h
      · exact hB h
    have hq : ¬ ∀ q ∈ names, q ∉ rowNames m := by
      obtain ⟨q, hqn, hqm⟩ := hplay
      intro hall
      exact hall q hqn hqm
    refine ⟨?_, ?_, ?_⟩
    · simp only [multiStep, if_neg hg, if_neg hq]
    · intro p hp hnot
      simp only [multiStep, if_neg hg, if_neg hq, if_pos hp, if_neg hnot]
    · intro p hp hin
      refine ⟨snapshotOf (eloStep st.ratings m p)
        (counterAdd m p (st.counters p)), ?_⟩
      simp only [multiStep, if_neg hg, if_neg hq, if_pos hp, if_pos hin,
        if_pos (And.intro hp hin)]

/-- Witness for C8: on the one-match log, subject "P1" played and
subject "QQ" did not; the series lengths match the label count. -/
theorem C8_witness :
    (["P1", "QQ"] : List String).Nodup ∧
      ((multi_player_cumulative_series [mExample] ["P1", "QQ"]).series
          "QQ").length
        = ((multi_player_cumulative_series [mExample] ["P1", "QQ"]).labels
          ).length :=
  ⟨by decide,
    (C8_no_data_markers [mExample] ["P1", "QQ"] (by decide)).1 "QQ"
      (by decide)⟩

end ClaimTheorems

end Calcetto
